import Mathlib

/-!
Verification of the configuration-loading pipeline of `bevy_config_file`
(`src/lib.rs`): a shallow embedding of `load_config_file`,
`load_resource_from_config_file` and the supporting merge / env-var-name
derivation logic, followed by theorems settling the specified properties.

External collaborators (the filesystem, the process environment, and the
serde YAML/JSON codecs for the generic type `T`) are passed in as explicit
functional parameters, mirroring the way the Rust code calls out to
`std::fs`, `std::env`, `serde_yaml` and `serde_json`.
-/

/-- A generic JSON value, mirroring `serde_json::Value`. Objects are
association lists of key/value pairs (`serde_json::Map`); numbers are
modelled as integers since no claim depends on numeric representation. -/
inductive JsonValue where
  | null : JsonValue
  | bool (b : Bool) : JsonValue
  | num (n : Int) : JsonValue
  | str (s : String) : JsonValue
  | arr (xs : List JsonValue) : JsonValue
  | obj (m : List (String × JsonValue)) : JsonValue

/-- Whether a JSON value is an object (`serde_json::Value::Object`). -/
def JsonValue.isObj : JsonValue → Bool
  | .obj _ => true
  | _ => false

/-- `Map::insert` on the association-list model of `serde_json::Map`:
replace the value at the first occurrence of the key, else append. -/
def mapInsert (m : List (String × JsonValue)) (k : String) (v : JsonValue) :
    List (String × JsonValue) :=
  match m with
  | [] => [(k, v)]
  | (k', v') :: rest =>
    if k' = k then (k', v) :: rest else (k', v') :: mapInsert rest k v

/-- Key lookup in the association-list model of `serde_json::Map`. -/
def mapLookup (m : List (String × JsonValue)) (k : String) : Option JsonValue :=
  match m with
  | [] => none
  | (k', v) :: rest => if k' = k then some v else mapLookup rest k

/-- The merge loop of `load_config_file`:
`for (key, value) in override_map { base_map.insert(key, value); }`. -/
def mergedMap (bm om : List (String × JsonValue)) : List (String × JsonValue) :=
  om.foldl (fun acc kv => mapInsert acc kv.1 kv.2) bm

/-- The `if let (JsonValue::Object(base_map), JsonValue::Object(override_map))`
step of `load_config_file`: shallow merge when both values are objects,
otherwise leave the base JSON value untouched. -/
def mergeOverride (base ovr : JsonValue) : JsonValue :=
  match base, ovr with
  | .obj bm, .obj om => .obj (mergedMap bm om)
  | b, _ => b

/-- Rust's `str::split("::")` specialised to the fixed two-character
separator: left-to-right, non-overlapping occurrences of `"::"` delimit
segments; the empty string yields one empty segment. -/
def splitOnColons : List Char → List (List Char)
  | [] => [[]]
  | ':' :: ':' :: rest => [] :: splitOnColons rest
  | c :: rest =>
    match splitOnColons rest with
    | [] => [[c]]
    | s :: ss => (c :: s) :: ss

/-- Joining segments back with the `"::"` separator (used to characterise
`splitOnColons`). -/
def intercalateColons : List (List Char) → List Char
  | [] => []
  | [s] => s
  | s :: rest => s ++ ':' :: ':' :: intercalateColons rest

theorem splitOnColons_ne_nil (l : List Char) : splitOnColons l ≠ [] := by
  induction l using splitOnColons.induct <;>
    · simp only [splitOnColons]
      try split
      all_goals simp_all

/-- `CONFIG_{type_name}` where `type_name` is
`std::any::type_name::<T>().split("::").last().unwrap()`; the `unwrap` is
total because `splitOnColons` never returns the empty list. -/
def envVarName (fqName : String) : String :=
  "CONFIG_" ++ String.mk ((splitOnColons fqName.data).getLast
    (splitOnColons_ne_nil fqName.data))

/-- The error of `std::env::var`: the variable is absent, or present but
not valid Unicode. -/
inductive VarError where
  | notPresent : VarError
  | notUnicode (desc : String) : VarError
deriving DecidableEq, Repr

/-- `LoadConfigError` from `src/lib.rs`, the diagnostics of the wrapped
`serde_yaml::Error`, `serde_json::Error` and `std::io::Error` modelled as
strings. -/
inductive LoadConfigError where
  | yaml (e : String) : LoadConfigError
  | json (e : String) : LoadConfigError
  | io (e : String) : LoadConfigError
deriving DecidableEq, Repr

/-- The bundle of compile-time data and serde instances the generic
functions use for a configuration type `T`: `T::PATH`,
`std::any::type_name::<T>()`, `serde_yaml::from_str::<T>`,
`serde_json::to_value` and `serde_json::from_value`. -/
structure SerdeType (T : Type) where
  path : String
  typeName : String
  yamlFromStr : String → Except String T
  toJson : T → Except String JsonValue
  fromJson : JsonValue → Except String T

/-- The Loader stage of `load_config_file` (lines 285–291): read the file,
then parse it as YAML into `T`, classifying failures as `Io` / `Yaml`. -/
def loader_load {T : Type} (ct : SerdeType T)
    (fsRead : String → Except String String) : Except LoadConfigError T :=
  match fsRead ct.path with
  | .error e => .error (.io e)
  | .ok yamlContent =>
    match ct.yamlFromStr yamlContent with
    | .ok config => .ok config
    | .error e => .error (.yaml e)

/-- The final `serde_json::from_value` step of `load_config_file`,
classifying failure as `Json`. -/
def decodeStep {T : Type} (ct : SerdeType T) (j : JsonValue) :
    Except LoadConfigError T :=
  match ct.fromJson j with
  | .ok config => .ok config
  | .error e => .error (.json e)

/-- `load_config_file::<T>()` from `src/lib.rs`, the external effects
(filesystem read, `env::var`, `serde_json::from_str`) passed as explicit
functions. -/
def load_config_file {T : Type} (ct : SerdeType T)
    (fsRead : String → Except String String)
    (envVar : String → Except VarError String)
    (jsonFromStr : String → Except String JsonValue) :
    Except LoadConfigError T :=
  match fsRead ct.path with
  | .error e => .error (.io e)
  | .ok yamlContent =>
    match ct.yamlFromStr yamlContent with
    | .error e => .error (.yaml e)
    | .ok baseConfig =>
      match envVar (envVarName ct.typeName) with
      | .error _ => .ok baseConfig
      | .ok jsonOverrideStr =>
        match jsonFromStr jsonOverrideStr with
        | .error e => .error (.json e)
        | .ok jsonOverride =>
          match ct.toJson baseConfig with
          | .error e => .error (.json e)
          | .ok baseJson =>
            decodeStep ct (mergeOverride baseJson jsonOverride)

/-- The host's resource registry for type `T` as seen by
`Commands::insert_resource`: at most one resource of the type. -/
structure Registry (T : Type) where
  resource : Option T

/-- `load_resource_from_config_file::<T>` from `src/lib.rs`: run the
pipeline, insert the resource on success, propagate the error on failure. -/
def load_resource_from_config_file {T : Type} (ct : SerdeType T)
    (fsRead : String → Except String String)
    (envVar : String → Except VarError String)
    (jsonFromStr : String → Except String JsonValue)
    (reg : Registry T) : Except LoadConfigError Unit × Registry T :=
  match load_config_file ct fsRead envVar jsonFromStr with
  | .ok config => (.ok (), { reg with resource := some config })
  | .error err => (.error err, reg)

theorem intercalateColons_cons_cons (c : Char) (s : List Char)
    (ss : List (List Char)) :
    intercalateColons ((c :: s) :: ss) = c :: intercalateColons (s :: ss) := by
  cases ss <;> rfl

theorem splitOnColons_join (l : List Char) :
    intercalateColons (splitOnColons l) = l := by
  induction l using splitOnColons.induct with
  | case1 => rfl
  | case2 rest ih =>
    show intercalateColons ([] :: splitOnColons rest) = ':' :: ':' :: rest
    cases h : splitOnColons rest with
    | nil => exact absurd h (splitOnColons_ne_nil rest)
    | cons s ss =>
      rw [h] at ih
      calc intercalateColons ([] :: s :: ss)
          = ':' :: ':' :: intercalateColons (s :: ss) := rfl
        _ = ':' :: ':' :: rest := by rw [ih]
  | case3 c rest hne h ih => exact absurd h (splitOnColons_ne_nil rest)
  | case4 c rest hne s ss h ih =>
    have hsplit : splitOnColons (c :: rest) = (c :: s) :: ss := by
      rw [splitOnColons.eq_def]
      split
      · simp_all
      · rename_i rest' heq
        exfalso
        rw [List.cons_eq_cons] at heq
        exact hne rest' heq.1 heq.2
      · rename_i c' rest' hne' heq
        injection heq with h1 h2
        subst h1
        subst h2
        rw [h]
    rw [hsplit, intercalateColons_cons_cons, ← h, ih]


theorem mapLookup_mapInsert (m : List (String × JsonValue)) (k q : String)
    (v : JsonValue) :
    mapLookup (mapInsert m k v) q = if q = k then some v else mapLookup m q := by
  induction m with
  | nil =>
    by_cases h : q = k
    · subst h
      simp [mapInsert, mapLookup]
    · have h' : ¬(k = q) := fun hh => h hh.symm
      simp [mapInsert, mapLookup, h, h']
  | cons kv rest ih =>
    obtain ⟨k1, v1⟩ := kv
    by_cases hk1 : k1 = k
    · subst hk1
      by_cases hq : q = k1
      · subst hq
        simp [mapInsert, mapLookup]
      · have hq' : ¬(k1 = q) := fun hh => hq hh.symm
        simp [mapInsert, mapLookup, hq, hq']
    · by_cases hq : k1 = q
      · subst hq
        simp [mapInsert, mapLookup, hk1]
      · by_cases hqk : q = k
        · subst hqk
          simp [mapInsert, mapLookup, hk1, hq, ih]
        · simp [mapInsert, mapLookup, hk1, hq, hqk, ih]

theorem mapLookup_eq_none_of_not_mem_keys (m : List (String × JsonValue))
    (k : String) (h : k ∉ m.map Prod.fst) : mapLookup m k = none := by
  induction m with
  | nil => rfl
  | cons kv rest ih =>
    obtain ⟨k1, v1⟩ := kv
    simp only [List.map_cons, List.mem_cons] at h
    push_neg at h
    have h1 : ¬(k1 = k) := fun hh => h.1 hh.symm
    simp only [mapLookup, if_neg h1]
    exact ih h.2

theorem mapLookup_mergedMap (bm om : List (String × JsonValue)) (q : String)
    (hnd : (om.map Prod.fst).Nodup) :
    mapLookup (mergedMap bm om) q =
      match mapLookup om q with
      | some v => some v
      | none => mapLookup bm q := by
  induction om generalizing bm with
  | nil => simp [mergedMap, mapLookup]
  | cons kv rest ih =>
    obtain ⟨k0, v0⟩ := kv
    simp only [List.map_cons, List.nodup_cons] at hnd
    have hstep : mergedMap bm ((k0, v0) :: rest) =
        mergedMap (mapInsert bm k0 v0) rest := rfl
    rw [hstep, ih (mapInsert bm k0 v0) hnd.2]
    by_cases hq : q = k0
    · subst hq
      rw [mapLookup_eq_none_of_not_mem_keys rest _ hnd.1]
      simp [mapLookup, mapLookup_mapInsert]
    · have hq' : ¬(k0 = q) := fun hh => hq hh.symm
      simp only [mapLookup, if_neg hq']
      cases mapLookup rest q <;>
        simp [mapLookup_mapInsert, hq]

/-- A concrete configuration type mirroring the integration tests'
`TestConfig { value, name }`, used to instantiate the generic theorems. -/
structure TestConfig where
  value : Int
  name : String
deriving DecidableEq, Repr

/-- Concrete serde bundle for `TestConfig`: the YAML codec recognises the
test fixture document, and the JSON codec is the evident field encoding. -/
def testCT : SerdeType TestConfig where
  path := "assets/config/test.yaml"
  typeName := "bevy_config_file::tests::TestConfig"
  yamlFromStr := fun s =>
    if s = "value: 42\nname: test\n" then .ok ⟨42, "test"⟩
    else .error "invalid yaml"
  toJson := fun c => .ok (.obj [("value", .num c.value), ("name", .str c.name)])
  fromJson := fun j =>
    match j with
    | .obj [("value", .num v), ("name", .str n)] => .ok ⟨v, n⟩
    | _ => .error "invalid type"

/-- A one-file filesystem holding the test fixture document. -/
def testFs : String → Except String String := fun p =>
  if p = "assets/config/test.yaml" then .ok "value: 42\nname: test\n"
  else .error "No such file or directory (os error 2)"

/-- An environment with no variables set. -/
def emptyEnv : String → Except VarError String :=
  fun _ => .error .notPresent

/-- An environment with exactly one variable set. -/
def envWith (name val : String) : String → Except VarError String :=
  fun n => if n = name then .ok val else .error .notPresent

/-- An environment in which every lookup fails with the non-Unicode error. -/
def nonUnicodeEnv : String → Except VarError String :=
  fun _ => .error (.notUnicode "environment variable was not valid unicode")

/-- Concrete `serde_json::from_str` recognising the override payloads used
in the witnesses; everything else is a JSON syntax error. -/
def testJsonFromStr : String → Except String JsonValue := fun s =>
  if s = "\x7b\"value\": 100\x7d" then .ok (.obj [("value", .num 100)])
  else if s = "[1, 2]" then .ok (.arr [.num 1, .num 2])
  else .error "expected value at line 1 column 1"

/-- C1: for every configuration type and valid base YAML file, if the
derived environment variable is set but its content is not valid JSON,
`load_config_file` fails with a `Json`-classified error and produces no
typed value at all (in particular not the unoverridden base). -/
theorem c1_invalid_override_json_fails {T : Type} (ct : SerdeType T)
    (fsRead : String → Except String String)
    (envVar : String → Except VarError String)
    (jsonFromStr : String → Except String JsonValue)
    (content : String) (base : T) (s e : String)
    (hfs : fsRead ct.path = .ok content)
    (hyaml : ct.yamlFromStr content = .ok base)
    (henv : envVar (envVarName ct.typeName) = .ok s)
    (hjson : jsonFromStr s = .error e) :
    load_config_file ct fsRead envVar jsonFromStr = .error (.json e) := by
  simp [load_config_file, hfs, hyaml, henv, hjson]

theorem c1_witness :
    load_config_file testCT testFs (envWith "CONFIG_TestConfig" "not json")
      testJsonFromStr = .error (.json "expected value at line 1 column 1") :=
  c1_invalid_override_json_fails testCT testFs
    (envWith "CONFIG_TestConfig" "not json") testJsonFromStr
    "value: 42\nname: test\n" ⟨42, "test"⟩ "not json"
    "expected value at line 1 column 1" rfl rfl rfl rfl

/-- C2: if the derived environment variable is unset, `load_config_file`
returns exactly the Loader-only output (YAML deserialization of the file),
with no JSON re-encoding, merging or decoding. -/
theorem c2_no_override_invariance {T : Type} (ct : SerdeType T)
    (fsRead : String → Except String String)
    (envVar : String → Except VarError String)
    (jsonFromStr : String → Except String JsonValue)
    (hunset : envVar (envVarName ct.typeName) = .error .notPresent) :
    load_config_file ct fsRead envVar jsonFromStr = loader_load ct fsRead := by
  cases hfs : fsRead ct.path with
  | error e => simp [load_config_file, loader_load, hfs]
  | ok content =>
    cases hy : ct.yamlFromStr content with
    | error e => simp [load_config_file, loader_load, hfs, hy]
    | ok base => simp [load_config_file, loader_load, hfs, hy, hunset]

theorem c2_witness :
    load_config_file testCT testFs emptyEnv testJsonFromStr =
      loader_load testCT testFs :=
  c2_no_override_invariance testCT testFs emptyEnv testJsonFromStr rfl

/-- C3: when both the re-encoded base and the override parse as JSON
objects, the merged object maps every key present in the override to the
override's value and every other key to the base's value, and the final
result is the decoding of this merged object. -/
theorem c3_merge_semantics {T : Type} (ct : SerdeType T)
    (fsRead : String → Except String String)
    (envVar : String → Except VarError String)
    (jsonFromStr : String → Except String JsonValue)
    (content : String) (base : T) (s : String)
    (om bm : List (String × JsonValue))
    (hfs : fsRead ct.path = .ok content)
    (hyaml : ct.yamlFromStr content = .ok base)
    (henv : envVar (envVarName ct.typeName) = .ok s)
    (hjson : jsonFromStr s = .ok (.obj om))
    (htj : ct.toJson base = .ok (.obj bm))
    (hnd : (om.map Prod.fst).Nodup) :
    (∀ q, mapLookup (mergedMap bm om) q =
      match mapLookup om q with
      | some v => some v
      | none => mapLookup bm q) ∧
    load_config_file ct fsRead envVar jsonFromStr =
      decodeStep ct (.obj (mergedMap bm om)) := by
  refine ⟨fun q => mapLookup_mergedMap bm om q hnd, ?_⟩
  simp [load_config_file, hfs, hyaml, henv, hjson, htj, mergeOverride]

theorem c3_witness :
    mapLookup (mergedMap [("value", JsonValue.num 42), ("name", JsonValue.str "test")]
      [("value", JsonValue.num 100)]) "value" = some (JsonValue.num 100) ∧
    mapLookup (mergedMap [("value", JsonValue.num 42), ("name", JsonValue.str "test")]
      [("value", JsonValue.num 100)]) "name" = some (JsonValue.str "test") ∧
    load_config_file testCT testFs
      (envWith "CONFIG_TestConfig" "\x7b\"value\": 100\x7d") testJsonFromStr =
      .ok ⟨100, "test"⟩ :=
  have h := c3_merge_semantics testCT testFs
    (envWith "CONFIG_TestConfig" "\x7b\"value\": 100\x7d") testJsonFromStr
    "value: 42\nname: test\n" ⟨42, "test"⟩ "\x7b\"value\": 100\x7d"
    [("value", JsonValue.num 100)]
    [("value", JsonValue.num 42), ("name", JsonValue.str "test")]
    rfl rfl rfl rfl rfl (by simp)
  ⟨(h.1 "value").trans rfl, (h.1 "name").trans rfl, h.2.trans rfl⟩

/-- C4: if the environment variable is set to valid JSON that is not an
object, no merge is applied: the pipeline keeps the unmerged base-as-JSON,
decodes it back, and (when the round trip is the identity, as the claim's
parenthetical states) the result equals the unoverridden base value. -/
theorem c4_non_object_override_noop {T : Type} (ct : SerdeType T)
    (fsRead : String → Except String String)
    (envVar : String → Except VarError String)
    (jsonFromStr : String → Except String JsonValue)
    (content : String) (base : T) (s : String) (j bj : JsonValue)
    (hfs : fsRead ct.path = .ok content)
    (hyaml : ct.yamlFromStr content = .ok base)
    (henv : envVar (envVarName ct.typeName) = .ok s)
    (hjson : jsonFromStr s = .ok j)
    (hnotobj : j.isObj = false)
    (htj : ct.toJson base = .ok bj) :
    mergeOverride bj j = bj ∧
    load_config_file ct fsRead envVar jsonFromStr = decodeStep ct bj ∧
    (ct.fromJson bj = .ok base →
      load_config_file ct fsRead envVar jsonFromStr = .ok base) := by
  have hmerge : mergeOverride bj j = bj := by
    cases j <;> simp [JsonValue.isObj] at hnotobj ⊢ <;> cases bj <;> rfl
  refine ⟨hmerge, ?_, ?_⟩
  · simp [load_config_file, hfs, hyaml, henv, hjson, htj, hmerge]
  · intro hrt
    simp [load_config_file, hfs, hyaml, henv, hjson, htj, hmerge, decodeStep, hrt]

theorem c4_witness :
    load_config_file testCT testFs (envWith "CONFIG_TestConfig" "[1, 2]")
      testJsonFromStr = .ok ⟨42, "test"⟩ :=
  (c4_non_object_override_noop testCT testFs
    (envWith "CONFIG_TestConfig" "[1, 2]") testJsonFromStr
    "value: 42\nname: test\n" ⟨42, "test"⟩ "[1, 2]"
    (.arr [.num 1, .num 2])
    (.obj [("value", .num 42), ("name", .str "test")])
    rfl rfl rfl rfl rfl rfl).2.2 rfl

/-- C5: whenever the file read fails, `load_config_file` fails with the
`Io` classification carrying the read's error, never with a YAML or JSON
parse classification. -/
theorem c5_missing_file_io_error {T : Type} (ct : SerdeType T)
    (fsRead : String → Except String String)
    (envVar : String → Except VarError String)
    (jsonFromStr : String → Except String JsonValue)
    (e : String)
    (hfs : fsRead ct.path = .error e) :
    load_config_file ct fsRead envVar jsonFromStr = .error (.io e) := by
  simp [load_config_file, hfs]

/-- A descriptor whose path is absent from the test filesystem. -/
def missingCT : SerdeType TestConfig := { testCT with path := "missing.yaml" }

theorem c5_witness :
    load_config_file missingCT testFs emptyEnv testJsonFromStr =
      .error (.io "No such file or directory (os error 2)") :=
  c5_missing_file_io_error missingCT testFs emptyEnv testJsonFromStr
    "No such file or directory (os error 2)" rfl

/-- C6: the override variable name is the pure function
`"CONFIG_" ++ <last segment of the type name split on "::">`; joining the
segments of `splitOnColons` with `"::"` recovers the input, so the
segmentation is a genuine split of the fully-qualified name. -/
theorem c6_env_var_name_derivation (fq : String) :
    envVarName fq = "CONFIG_" ++ String.mk ((splitOnColons fq.data).getLast
      (splitOnColons_ne_nil fq.data)) ∧
    intercalateColons (splitOnColons fq.data) = fq.data :=
  ⟨rfl, splitOnColons_join fq.data⟩

/-- C7: `load_resource_from_config_file` inserts the typed configuration
into the registry exactly when the pipeline succeeds; on failure the
registry is unchanged and the classified error is propagated unchanged. -/
theorem c7_registry_insert_iff_success {T : Type} (ct : SerdeType T)
    (fsRead : String → Except String String)
    (envVar : String → Except VarError String)
    (jsonFromStr : String → Except String JsonValue)
    (reg : Registry T) :
    (∀ c, load_config_file ct fsRead envVar jsonFromStr = .ok c →
      load_resource_from_config_file ct fsRead envVar jsonFromStr reg =
        (.ok (), { resource := some c })) ∧
    (∀ err, load_config_file ct fsRead envVar jsonFromStr = .error err →
      load_resource_from_config_file ct fsRead envVar jsonFromStr reg =
        (.error err, reg)) := by
  constructor
  · intro c hc
    simp [load_resource_from_config_file, hc]
  · intro err herr
    simp [load_resource_from_config_file, herr]

theorem c7_witness :
    load_resource_from_config_file testCT testFs emptyEnv testJsonFromStr
      ⟨none⟩ = (.ok (), ⟨some ⟨42, "test"⟩⟩) ∧
    load_resource_from_config_file missingCT testFs emptyEnv testJsonFromStr
      ⟨none⟩ = (.error (.io "No such file or directory (os error 2)"), ⟨none⟩) :=
  ⟨(c7_registry_insert_iff_success testCT testFs emptyEnv testJsonFromStr
      ⟨none⟩).1 ⟨42, "test"⟩ rfl,
   (c7_registry_insert_iff_success missingCT testFs emptyEnv testJsonFromStr
      ⟨none⟩).2 (.io "No such file or directory (os error 2)") rfl⟩

/-- C8: for every typed value `v`, loading a file whose content is the
YAML serialization of `v` (under a parser that inverts the serializer,
with no override variable set) reconstructs exactly `v`. -/
theorem c8_yaml_round_trip {T : Type} (ct : SerdeType T)
    (fsRead : String → Except String String)
    (envVar : String → Except VarError String)
    (jsonFromStr : String → Except String JsonValue)
    (yamlWrite : T → String) (v : T)
    (hfile : fsRead ct.path = .ok (yamlWrite v))
    (hparse : ct.yamlFromStr (yamlWrite v) = .ok v)
    (hunset : envVar (envVarName ct.typeName) = .error .notPresent) :
    load_config_file ct fsRead envVar jsonFromStr = .ok v := by
  simp [load_config_file, hfile, hparse, hunset]

theorem c8_witness :
    load_config_file testCT testFs emptyEnv testJsonFromStr =
      .ok ⟨42, "test"⟩ :=
  c8_yaml_round_trip testCT testFs emptyEnv testJsonFromStr
    (fun _ => "value: 42\nname: test\n") ⟨42, "test"⟩ rfl rfl rfl

/-- C9: any error from the environment lookup — absence or a present but
non-Unicode value — makes `load_config_file` return the base value
unchanged; a non-Unicode override is silently ignored, never reported. -/
theorem c9_env_error_returns_base {T : Type} (ct : SerdeType T)
    (fsRead : String → Except String String)
    (envVar : String → Except VarError String)
    (jsonFromStr : String → Except String JsonValue)
    (content : String) (base : T) (e : VarError)
    (hfs : fsRead ct.path = .ok content)
    (hyaml : ct.yamlFromStr content = .ok base)
    (henv : envVar (envVarName ct.typeName) = .error e) :
    load_config_file ct fsRead envVar jsonFromStr = .ok base := by
  simp [load_config_file, hfs, hyaml, henv]

theorem c9_witness :
    load_config_file testCT testFs nonUnicodeEnv testJsonFromStr =
      .ok ⟨42, "test"⟩ :=
  c9_env_error_returns_base testCT testFs nonUnicodeEnv testJsonFromStr
    "value: 42\nname: test\n" ⟨42, "test"⟩
    (.notUnicode "environment variable was not valid unicode") rfl rfl rfl

/-- C10: splitting any type-name string on `"::"` yields at least one
segment, so taking the last segment always succeeds and the `unwrap` in
the env-var-name derivation is unreachable in its failure branch. -/
theorem c10_last_segment_total (s : String) :
    splitOnColons s.data ≠ [] ∧
    (splitOnColons s.data).getLast? =
      some ((splitOnColons s.data).getLast (splitOnColons_ne_nil s.data)) :=
  ⟨splitOnColons_ne_nil s.data,
   List.getLast?_eq_getLast (splitOnColons s.data) (splitOnColons_ne_nil s.data)⟩
